import Mathlib

/-!
Verification of the OpenAPI conformance-checker script
(.specify/scripts/validate-openapi.py) against its natural-language
specification.

The script is embedded shallowly:

* Parsed YAML documents become the `Yaml` inductive (string scalars,
  numeric/other scalars, null, mappings with string keys, sequences).
  Mapping keys relevant to the script are all strings, so keys are
  modelled as `String`.
* Each Python operation that can raise is modelled as an
  `Option`-valued function, `none` marking an uncaught exception
  (`KeyError`, `AttributeError`, `TypeError`).
* The five checks and the surrounding `validate_openapi_spec` function
  are translated line by line; `validate` returns `none` exactly when
  the Python function would raise.
* The loader and exit-code logic of `__main__` are modelled by
  `LoadResult`, `runScript` and `exitCode`.

Console text is cosmetic per the spec; finding messages are rebuilt with
the same shape and counts (quote characters are dropped from message
text, which no claim inspects).
-/

/-- A parsed YAML tree: string scalars, numeric scalars, null,
mappings (association lists, string keys, first key wins as in a
Python dict) and sequences. -/
inductive Yaml where
  | str : String → Yaml
  | num : Int → Yaml
  | null : Yaml
  | map : List (String × Yaml) → Yaml
  | seq : List Yaml → Yaml
deriving Repr

/-- Structural equality on `Yaml`, mirroring Python `==` on the parsed
tree (strings compare to strings, lists elementwise, dicts as entry
lists). -/
def yamlBeq : Yaml → Yaml → Bool
  | Yaml.str a, Yaml.str b => a == b
  | Yaml.num a, Yaml.num b => a == b
  | Yaml.null, Yaml.null => true
  | Yaml.map a, Yaml.map b => yamlBeqEntries a b
  | Yaml.seq a, Yaml.seq b => yamlBeqList a b
  | _, _ => false
where
  yamlBeqEntries : List (String × Yaml) → List (String × Yaml) → Bool
    | [], [] => true
    | (k1, v1) :: t1, (k2, v2) :: t2 => k1 == k2 && yamlBeq v1 v2 && yamlBeqEntries t1 t2
    | _, _ => false
  yamlBeqList : List Yaml → List Yaml → Bool
    | [], [] => true
    | a :: t1, b :: t2 => yamlBeq a b && yamlBeqList t1 t2
    | _, _ => false

instance : BEq Yaml := ⟨yamlBeq⟩

/-- First-match lookup in an association list, as Python dict lookup
(dict keys are unique; on a list with duplicates the first entry wins). -/
def ymLookup (m : List (String × Yaml)) (k : String) : Option Yaml :=
  match m with
  | [] => none
  | (k1, v) :: rest => if k1 == k then some v else ymLookup rest k

/-- Python `isinstance(v, dict)`. -/
def isDict : Yaml → Bool
  | Yaml.map _ => true
  | _ => false

/-- Python `y[k]`: succeeds only on a mapping that has the key
(`KeyError` on a missing key, `TypeError` on a non-mapping). -/
def ymIndex (y : Yaml) (k : String) : Option Yaml :=
  match y with
  | Yaml.map m => ymLookup m k
  | _ => none

/-- Python `y.get(k, default)`: needs a mapping (`AttributeError`
otherwise), never fails on a missing key. -/
def ymGet (y : Yaml) (k : String) (dflt : Yaml) : Option Yaml :=
  match y with
  | Yaml.map m =>
    match ymLookup m k with
    | some v => some v
    | none => some dflt
  | _ => none

/-- Python `y.items()`: the entry list of a mapping, `AttributeError`
otherwise. -/
def ymItems (y : Yaml) : Option (List (String × Yaml)) :=
  match y with
  | Yaml.map m => some m
  | _ => none

/-- Python iteration `for p in y`: sequences yield their elements,
strings their characters, mappings their keys; other scalars raise
`TypeError`. -/
def ymIter (y : Yaml) : Option (List Yaml) :=
  match y with
  | Yaml.seq l => some l
  | Yaml.str s => some (s.toList.map fun c => Yaml.str (String.singleton c))
  | Yaml.map m => some (m.map fun kv => Yaml.str kv.1)
  | _ => none

/-- True when `pat` is an initial segment of `s` (character lists). -/
def leadsWith : List Char → List Char → Bool
  | [], _ => true
  | _ :: _, [] => false
  | a :: as, b :: bs => a == b && leadsWith as bs

/-- Fuel-indexed left-to-right scan for the pattern `c :: cs`; on a
match the pattern length is skipped (matches of a constant pattern
cannot overlap). The fuel only serves structural recursion; it never
runs out when it starts at the text length, since every step consumes
at least one character. -/
def countOccsAux (c : Char) (cs : List Char) : Nat → List Char → Nat
  | 0, _ => 0
  | _, [] => 0
  | fuel + 1, b :: bs =>
    if leadsWith (c :: cs) (b :: bs) then 1 + countOccsAux c cs fuel (bs.drop cs.length)
    else countOccsAux c cs fuel bs

/-- Number of non-overlapping occurrences of the nonempty pattern
`c :: cs` in a character list, scanning left to right as
`re.findall` does with a constant pattern. -/
def countOccs (c : Char) (cs : List Char) (s : List Char) : Nat :=
  countOccsAux c cs s.length s

/-- Python `str.upper()` on the ASCII method names the script handles. -/
def strUpper (s : String) : String :=
  String.mk (s.data.map Char.toUpper)

/-- Python `str.lower()` on the ASCII method names the script handles. -/
def strLower (s : String) : String :=
  String.mk (s.data.map Char.toLower)

/-- Python len(re.findall(pat, s)) for a constant (regex-free) pattern. -/
def occurrences (pat s : String) : Nat :=
  match pat.toList with
  | [] => 0
  | c :: cs => countOccs c cs s.toList

/-- Python `field in y` (membership test): element membership for
sequences, substring for strings, key membership for mappings,
`TypeError` on other scalars. -/
def ymContains (y : Yaml) (field : String) : Option Bool :=
  match y with
  | Yaml.seq l => some (l.any fun e => e == Yaml.str field)
  | Yaml.str s => some (if field.isEmpty then true else 0 < occurrences field s)
  | Yaml.map m => some (m.any fun kv => kv.1 == field)
  | _ => none

/-- Python key-membership test (operationId in details) for a dict. -/
def yamlHasKey (y : Yaml) (k : String) : Bool :=
  match y with
  | Yaml.map m => m.any fun kv => kv.1 == k
  | _ => false

/-! ## Checks 1 and 2: raw-text casing scans -/

/-- Message of the check-1 finding. -/
def check1Msg (n : Nat) : String :=
  "Found " ++ toString n ++ " instances of incorrect operationID: (should be operationId:)"

/-- Check 1: scan the raw text for `operationID:`; one aggregated ERROR
when any occurrence exists. -/
def check1Errors (content : String) : List String :=
  let n := occurrences "operationID:" content
  if 0 < n then [check1Msg n] else []

/-- Message of the check-2 finding. -/
def check2Msg (n : Nat) : String :=
  "Found " ++ toString n ++ " instances of incorrect Parameters: (should be parameters:)"

/-- Check 2: scan the raw text for a newline, two spaces and
`Parameters:`; one aggregated ERROR when any occurrence exists. -/
def check2Errors (content : String) : List String :=
  let n := occurrences "\n  Parameters:" content
  if 0 < n then [check2Msg n] else []

/-! ## Check 3: every endpoint has an operationId -/

/-- Inner loop of check 3 over one path entry: for every method key
that is not `parameters` and whose value is a mapping, count it and
flag it when it lacks `operationId`. State is
(flagged endpoint names, running endpoint total). -/
def check3Methods (path : String) (ms : List (String × Yaml))
    (st : List String × Nat) : List String × Nat :=
  ms.foldl (fun st2 kd =>
    if kd.1 != "parameters" && isDict kd.2 then
      ((if yamlHasKey kd.2 "operationId" then st2.1
        else st2.1 ++ [strUpper kd.1 ++ " " ++ path]),
       st2.2 + 1)
    else st2) st

/-- Outer loop of check 3 over the paths entries; `methods.items()`
raises on a non-mapping path value. -/
def check3Paths : List (String × Yaml) → List String × Nat → Option (List String × Nat)
  | [], st => some st
  | (p, mv) :: rest, st =>
    match ymItems mv with
    | none => none
    | some ms => check3Paths rest (check3Methods p ms st)

/-- Check 3 body: spec["paths"].items() (raising on a missing or
non-mapping `paths`) then the two nested loops. -/
def check3Core (spec : Yaml) : Option (List String × Nat) :=
  match ymIndex spec "paths" with
  | none => none
  | some pv =>
    match ymItems pv with
    | none => none
    | some pm => check3Paths pm ([], 0)

/-- Message of the check-3 finding. -/
def check3Msg (l : List String) : String :=
  "Found " ++ toString l.length ++ " endpoints without operationId: " ++
    String.intercalate ", " l

/-- Check-3 error contribution: one aggregated ERROR when any endpoint
is flagged. -/
def check3Errors (l : List String) : List String :=
  if l.isEmpty then [] else [check3Msg l]

/-! ## Check 4: user endpoints declare a userId parameter -/

/-- The fixed `(method, path)` list of user-scoped endpoints. -/
def userEndpoints : List (String × String) :=
  [("get", "/user/{userId}"),
   ("delete", "/user/{userId}"),
   ("get", "/user/{userId}/points"),
   ("post", "/user/{userId}/points")]

/-- The navigation spec["paths"].get(path, {}).get(method, {}). -/
def epDetails (spec : Yaml) (method path : String) : Option Yaml :=
  match ymIndex spec "paths" with
  | none => none
  | some pv =>
    match ymGet pv path (Yaml.map []) with
    | none => none
    | some a => ymGet a method (Yaml.map [])

/-- Python isinstance(p, dict) and p.get("name") == "userId" for one
entry of the parameters sequence. -/
def pHasNameUserId (p : Yaml) : Bool :=
  match p with
  | Yaml.map m =>
    match ymLookup m "name" with
    | some v => v == Yaml.str "userId"
    | none => false
  | _ => false

/-- One iteration of the check-4 loop:
endpoint_details.get("parameters", []) then the any(...) scan. -/
def epHasUserId (spec : Yaml) (method path : String) : Option Bool :=
  match epDetails spec method path with
  | none => none
  | some d =>
    match ymGet d "parameters" (Yaml.seq []) with
    | none => none
    | some ps =>
      match ymIter ps with
      | none => none
      | some elems => some (elems.any pHasNameUserId)

/-- The formatted endpoint name, method upper-cased. -/
def fmtEndpoint (method path : String) : String :=
  strUpper method ++ " " ++ path

/-- Check-4 loop over the fixed endpoint list, accumulating the missing
endpoints in order. -/
def check4Go : List (String × String) → Yaml → List String → Option (List String)
  | [], _, acc => some acc
  | mp :: rest, spec, acc =>
    match epHasUserId spec mp.1 mp.2 with
    | none => none
    | some h => check4Go rest spec (if h then acc else acc ++ [fmtEndpoint mp.1 mp.2])

/-- Check 4 body: the endpoints of `userEndpoints` missing a userId
parameter. -/
def check4Missing (spec : Yaml) : Option (List String) :=
  check4Go userEndpoints spec []

/-- Message of the check-4 finding. -/
def check4Msg (l : List String) : String :=
  "Found " ++ toString l.length ++ " user endpoints missing userId parameter: " ++
    String.intercalate ", " l

/-- Check-4 error contribution: one aggregated ERROR when any endpoint
is missing the parameter. -/
def check4Errors (l : List String) : List String :=
  if l.isEmpty then [] else [check4Msg l]

/-! ## Check 5: response schemas declare baseline required fields -/

/-- One fixed response expectation: method (upper case), path, status
code and the expected baseline of required field names. -/
structure RespTuple where
  method : String
  path : String
  status : String
  expected : List String

/-- The fixed response expectations of check 5. -/
def responsesToCheck : List RespTuple :=
  [⟨"GET", "/products", "200", ["products", "total", "limit"]⟩,
   ⟨"GET", "/orders", "200", ["orders", "total"]⟩,
   ⟨"GET", "/user/{userId}/points", "200", ["loyaltyPoints"]⟩,
   ⟨"POST", "/user/{userId}/points", "200", ["remainingPoints"]⟩]

/-- The check-5 navigation: from spec["paths"], get(path, {}),
get(method.lower(), {}), get("responses", {}), get(status, {}),
get("content", {}), get("application/json", {}), get("schema", {}) and
finally get("required", []); every step after the initial
spec["paths"] lookup substitutes an empty mapping (finally an empty
sequence) for a missing key. -/
def navRequired (spec : Yaml) (t : RespTuple) : Option Yaml := do
  let pv ← ymIndex spec "paths"
  let a ← ymGet pv t.path (Yaml.map [])
  let ep ← ymGet a (strLower t.method) (Yaml.map [])
  let rs ← ymGet ep "responses" (Yaml.map [])
  let r ← ymGet rs t.status (Yaml.map [])
  let c ← ymGet r "content" (Yaml.map [])
  let aj ← ymGet c "application/json" (Yaml.map [])
  let sch ← ymGet aj "schema" (Yaml.map [])
  ymGet sch "required" (Yaml.seq [])

/-- The comprehension collecting every expected_required field not in
required, left to right, aborting on the first membership test that
raises. -/
def missingFields (req : Yaml) : List String → Option (List String)
  | [] => some []
  | f :: rest =>
    match ymContains req f with
    | none => none
    | some b =>
      match missingFields req rest with
      | none => none
      | some l => some (if b then l else f :: l)

/-- Check-5 loop over the fixed tuples, accumulating those with a
non-empty expected-minus-declared difference. -/
def check5Go : List RespTuple → Yaml → List (RespTuple × List String) →
    Option (List (RespTuple × List String))
  | [], _, acc => some acc
  | t :: rest, spec, acc =>
    match navRequired spec t with
    | none => none
    | some req =>
      match missingFields req t.expected with
      | none => none
      | some miss =>
        check5Go rest spec (if miss.isEmpty then acc else acc ++ [(t, miss)])

/-- Check 5 body: the tuples flagged with missing required fields. -/
def check5Flagged (spec : Yaml) : Option (List (RespTuple × List String)) :=
  check5Go responsesToCheck spec []

/-- Message of the single aggregated check-5 warning. -/
def check5WarnMsg (n : Nat) : String :=
  "Found " ++ toString n ++ " response schemas with potentially missing required fields"

/-- Check-5 warning contribution: one aggregated WARNING when any tuple
is flagged (the per-tuple details are only printed). -/
def check5Warnings (fl : List (RespTuple × List String)) : List String :=
  if fl.isEmpty then [] else [check5WarnMsg fl.length]

/-! ## The rule engine and the script -/

/-- The result of one completed validation run. -/
structure Verdict where
  ok : Bool
  errors : List String
  warnings : List String
  totalEndpoints : Nat

/-- The body of `validate_openapi_spec` after a successful load:
checks 1-5 in order (`none` models an uncaught exception), the two
finding collections in append order, the returned flag
(`True` iff `errors` is empty), and the raising
spec["openapi"] and spec["info"]["version"] reads of the
all-compliant summary branch. -/
def validate (spec : Yaml) (content : String) : Option Verdict :=
  match check3Core spec with
  | none => none
  | some st =>
    match check4Missing spec with
    | none => none
    | some missing =>
      match check5Flagged spec with
      | none => none
      | some fl =>
        let errors := check1Errors content ++ check2Errors content ++
          check3Errors st.1 ++ check4Errors missing
        let warnings := check5Warnings fl
        let v : Verdict := ⟨errors.isEmpty, errors, warnings, st.2⟩
        if errors.isEmpty && warnings.isEmpty then
          match ymIndex spec "openapi" with
          | none => none
          | some _ =>
            match ymIndex spec "info" with
            | none => none
            | some info =>
              match ymIndex info "version" with
              | none => none
              | some _ => some v
        else some v

/-- What the loader produced: a missing file, text that fails to parse,
or a parsed document together with the raw text. -/
inductive LoadResult where
  | notFound
  | yamlError
  | ok (spec : Yaml) (content : String)

/-- How one process run ends: an early return on a load failure (no
checks run, no findings), an uncaught exception, or a completed
validation with its verdict. -/
inductive RunOutcome where
  | loadFailure
  | crashed
  | completed (v : Verdict)

/-- The whole script: load errors return early, otherwise the rule
engine runs. -/
def runScript : LoadResult → RunOutcome
  | LoadResult.notFound => RunOutcome.loadFailure
  | LoadResult.yamlError => RunOutcome.loadFailure
  | LoadResult.ok spec content =>
    match validate spec content with
    | some v => RunOutcome.completed v
    | none => RunOutcome.crashed

/-- Python sys.exit(0 if success else 1), with a nonzero interpreter
exit on an uncaught exception. -/
def exitCode (l : LoadResult) : Nat :=
  match runScript l with
  | RunOutcome.completed v => if v.ok then 0 else 1
  | _ => 1

/-! ## Concrete documents used as witnesses and counterexamples -/

/-- A parameters entry declaring the userId parameter. -/
def userIdParam : Yaml := Yaml.map [("name", Yaml.str "userId")]

/-- A responses mapping with one 200 response whose JSON schema declares
the given required fields. -/
def respFor (req : List String) : Yaml :=
  Yaml.map [("200", Yaml.map [("content", Yaml.map [("application/json",
    Yaml.map [("schema", Yaml.map [("required", Yaml.seq (req.map Yaml.str))])])])])]

/-- An operation mapping with an operationId, optionally the userId
parameter, and a 200 response declaring `req` as required. -/
def epMap (withP : Bool) (req : List String) : Yaml :=
  Yaml.map ([("operationId", Yaml.str "op")] ++
    (if withP then [("parameters", Yaml.seq [userIdParam])] else []) ++
    [("responses", respFor req)])

/-- The paths entries of a fully compliant document. -/
def goodPathsEntries : List (String × Yaml) :=
  [("/products", Yaml.map [("get", epMap false ["products", "total", "limit"])]),
   ("/orders", Yaml.map [("get", epMap false ["orders", "total"])]),
   ("/user/{userId}", Yaml.map [("get", epMap true []), ("delete", epMap true [])]),
   ("/user/{userId}/points", Yaml.map [
      ("get", epMap true ["loyaltyPoints"]),
      ("post", epMap true ["remainingPoints"])])]

/-- A fully compliant document: all endpoints carry operationIds, the
four user endpoints declare userId, the four checked responses declare
their baselines, and the version scalars are present. -/
def goodDoc : Yaml :=
  Yaml.map [
    ("openapi", Yaml.str "3.0.0"),
    ("info", Yaml.map [("version", Yaml.str "1.0.0")]),
    ("paths", Yaml.map goodPathsEntries)]

/-- A document whose paths mapping is empty: validation completes, all
four user endpoints are missing and all four response tuples are
flagged. -/
def emptyPathsDoc : Yaml := Yaml.map [("paths", Yaml.map [])]

/-! ## Structure of a completed validation run -/

/-- Any completed run is assembled from the five check results exactly
as the source builds it: errors in check order 1-4, the single check-5
warning slot, `ok` true iff no errors. -/
theorem validate_eq (spec : Yaml) (content : String) (v : Verdict)
    (hv : validate spec content = some v) :
    ∃ st missing fl,
      check3Core spec = some st ∧ check4Missing spec = some missing ∧
      check5Flagged spec = some fl ∧
      v = ⟨(check1Errors content ++ check2Errors content ++
              check3Errors st.1 ++ check4Errors missing).isEmpty,
           check1Errors content ++ check2Errors content ++
              check3Errors st.1 ++ check4Errors missing,
           check5Warnings fl, st.2⟩ := by
  unfold validate at hv
  cases h3 : check3Core spec with
  | none => rw [h3] at hv; cases hv
  | some st =>
    rw [h3] at hv
    cases h4 : check4Missing spec with
    | none => rw [h4] at hv; cases hv
    | some missing =>
      rw [h4] at hv
      cases h5 : check5Flagged spec with
      | none => rw [h5] at hv; cases hv
      | some fl =>
        rw [h5] at hv
        refine ⟨st, missing, fl, rfl, rfl, rfl, ?_⟩
        dsimp only at hv
        split at hv
        · cases hoa : ymIndex spec "openapi" with
          | none => rw [hoa] at hv; cases hv
          | some x =>
            rw [hoa] at hv; dsimp only at hv
            cases hin : ymIndex spec "info" with
            | none => rw [hin] at hv; cases hv
            | some info =>
              rw [hin] at hv; dsimp only at hv
              cases hver : ymIndex info "version" with
              | none => rw [hver] at hv; cases hv
              | some y => rw [hver] at hv; exact (Option.some.inj hv).symm
        · exact (Option.some.inj hv).symm

/-- The flag of a completed run is true exactly when its errors
collection is empty. -/
theorem validate_ok_iff (spec : Yaml) (content : String) (v : Verdict)
    (hv : validate spec content = some v) : v.ok = true ↔ v.errors = [] := by
  obtain ⟨st, missing, fl, _, _, _, hveq⟩ := validate_eq spec content v hv
  subst hveq
  simp [List.isEmpty_iff]

/-- The verdict of the compliant document: success, no findings, six
endpoints. -/
def vGood : Verdict := ⟨true, [], [], 6⟩

/-- The verdict of the empty-paths document: one aggregated check-4
error, one aggregated check-5 warning. -/
def vEmptyPaths : Verdict :=
  ⟨false,
   [check4Msg ["GET /user/{userId}", "DELETE /user/{userId}",
               "GET /user/{userId}/points", "POST /user/{userId}/points"]],
   [check5WarnMsg 4], 0⟩

/-- C1: the claim that the rule engine never raises is false on the
code: for the document that lacks a `paths` key, check 3 evaluates
spec["paths"] and the run crashes instead of completing. -/
theorem C1_counterexample :
    runScript (LoadResult.ok (Yaml.map []) "") = RunOutcome.crashed := rfl

/-- C1 (amended): a document whose mapping has no `paths` key, or whose
`paths` mapping has a non-mapping path value, makes the run crash with
an uncaught exception inside check 3, so checks 4 and 5 never run. -/
theorem C1_amended_raises :
    (∀ (m : List (String × Yaml)) (content : String), ymLookup m "paths" = none →
      runScript (LoadResult.ok (Yaml.map m) content) = RunOutcome.crashed) ∧
    (∀ content : String,
      runScript (LoadResult.ok
        (Yaml.map [("paths", Yaml.map [("/a", Yaml.str "x")])]) content) =
        RunOutcome.crashed) := by
  constructor
  · intro m content h
    simp [runScript, validate, check3Core, ymIndex, h]
  · intro content
    rfl

/-- Witness for the amended C1: a concrete document with an `info` key
but no `paths` key crashes the run. -/
theorem C1_amended_raises_witness :
    ymLookup [("info", Yaml.null)] "paths" = none ∧
    runScript (LoadResult.ok (Yaml.map [("info", Yaml.null)]) "") = RunOutcome.crashed :=
  ⟨rfl, C1_amended_raises.1 [("info", Yaml.null)] "" rfl⟩

/-- C2: the claim that check 5 records one WARNING per flagged tuple is
false on the code: the empty-paths document flags all four tuples, yet
the warnings collection of the completed run holds a single aggregated
finding. -/
theorem C2_counterexample :
    (check5Flagged emptyPathsDoc).map List.length = some 4 ∧
    (validate emptyPathsDoc "").map (fun v => v.warnings.length) = some 1 :=
  ⟨rfl, rfl⟩

/-- C2 (amended): in every completed run the warnings collection is
exactly one aggregated WARNING when at least one of the four fixed
response tuples has a non-empty expected-minus-declared difference, and
empty otherwise; the per-tuple details are only printed, never recorded
as findings. -/
theorem C2_single_aggregated_warning :
    ∀ (spec : Yaml) (content : String) (v : Verdict), validate spec content = some v →
      ∃ fl, check5Flagged spec = some fl ∧
        v.warnings = (if fl.isEmpty then [] else [check5WarnMsg fl.length]) := by
  intro spec content v hv
  obtain ⟨st, missing, fl, _, _, h5, hveq⟩ := validate_eq spec content v hv
  exact ⟨fl, h5, by subst hveq; simp [check5Warnings]⟩

/-- Witness for the amended C2 at the empty-paths document. -/
theorem C2_single_aggregated_warning_witness :
    ∃ fl, check5Flagged emptyPathsDoc = some fl ∧
      vEmptyPaths.warnings = (if fl.isEmpty then [] else [check5WarnMsg fl.length]) :=
  C2_single_aggregated_warning emptyPathsDoc "" vEmptyPaths rfl

/-- C3: the exit code is 0 exactly when the run completes with an empty
errors collection; a load failure (missing file or unparseable text)
ends the run before any check with exit code 1 and no findings. -/
theorem C3_exit_code :
    ∀ l : LoadResult,
      ((exitCode l = 0) ↔ ∃ v, runScript l = RunOutcome.completed v ∧ v.errors = []) ∧
      runScript LoadResult.notFound = RunOutcome.loadFailure ∧
      runScript LoadResult.yamlError = RunOutcome.loadFailure ∧
      exitCode LoadResult.notFound = 1 ∧ exitCode LoadResult.yamlError = 1 := by
  intro l
  refine ⟨?_, rfl, rfl, rfl, rfl⟩
  cases l with
  | notFound => simp [exitCode, runScript]
  | yamlError => simp [exitCode, runScript]
  | ok spec content =>
    cases hv : validate spec content with
    | none => simp [exitCode, runScript, hv]
    | some v =>
      have hok := validate_ok_iff spec content v hv
      cases hb : v.ok with
      | false =>
        have hne : v.errors ≠ [] := fun h => by
          have := hok.mpr h; rw [this] at hb; cases hb
        simp [exitCode, runScript, hv, hb, hne]
      | true =>
        have he : v.errors = [] := hok.mp hb
        simp [exitCode, runScript, hv, hb, he]

/-- C8: validation is deterministic; two completed runs on the same
document and text agree on errors, warnings and the verdict flag. -/
theorem C8_deterministic :
    ∀ (spec : Yaml) (content : String) (v1 v2 : Verdict),
      validate spec content = some v1 → validate spec content = some v2 →
      v1.errors = v2.errors ∧ v1.warnings = v2.warnings ∧ v1.ok = v2.ok := by
  intro spec content v1 v2 h1 h2
  rw [h1] at h2
  cases Option.some.inj h2
  exact ⟨rfl, rfl, rfl⟩

/-- Witness for C8 at the compliant document. -/
theorem C8_deterministic_witness :
    vGood.errors = vGood.errors ∧ vGood.warnings = vGood.warnings ∧ vGood.ok = vGood.ok :=
  C8_deterministic goodDoc "" vGood vGood rfl rfl

/-- C10: a completed run holds at most four errors (one aggregated slot
per check 1-4) and at most one warning (the single check-5 slot). -/
theorem C10_findings_bounds :
    ∀ (spec : Yaml) (content : String) (v : Verdict), validate spec content = some v →
      v.errors.length ≤ 4 ∧ v.warnings.length ≤ 1 := by
  intro spec content v hv
  obtain ⟨st, missing, fl, _, _, _, hveq⟩ := validate_eq spec content v hv
  subst hveq
  refine ⟨?_, ?_⟩
  · simp only [List.length_append]
    have h1 : (check1Errors content).length ≤ 1 := by
      simp only [check1Errors]; split <;> simp
    have h2 : (check2Errors content).length ≤ 1 := by
      simp only [check2Errors]; split <;> simp
    have h3 : (check3Errors st.1).length ≤ 1 := by
      simp only [check3Errors]; split <;> simp
    have h4 : (check4Errors missing).length ≤ 1 := by
      simp only [check4Errors]; split <;> simp
    omega
  · simp only [check5Warnings]; split <;> simp

/-- Witness for C10 at the compliant document. -/
theorem C10_findings_bounds_witness :
    vGood.errors.length ≤ 4 ∧ vGood.warnings.length ≤ 1 :=
  C10_findings_bounds goodDoc "" vGood rfl

/-! ## C4: check 3 on well-formed documents -/

/-- Every method entry other than the synthetic `parameters` key is a
mapping that carries an operationId. -/
def methodsAllHaveOpId (ms : List (String × Yaml)) : Bool :=
  ms.all fun kd => kd.1 == "parameters" || (isDict kd.2 && yamlHasKey kd.2 "operationId")

/-- Every path value is a mapping whose method entries satisfy
`methodsAllHaveOpId`. -/
def pathsAllHaveOpId (pm : List (String × Yaml)) : Bool :=
  pm.all fun pv =>
    match pv.2 with
    | Yaml.map mm => methodsAllHaveOpId mm
    | _ => false

/-- The number of method entries of one path that check 3 counts as
endpoints: key not `parameters`, value a mapping. -/
def methodCount (ms : List (String × Yaml)) : Nat :=
  (ms.filter fun kd => kd.1 != "parameters" && isDict kd.2).length

/-- The true endpoint count of a paths mapping: the `(path, method)`
entries whose method key is not `parameters` and whose value is a
mapping. -/
def endpointCount (pm : List (String × Yaml)) : Nat :=
  (pm.map fun pv =>
    match pv.2 with
    | Yaml.map mm => methodCount mm
    | _ => 0).sum

/-- One step of the inner check-3 loop. -/
theorem check3Methods_cons (p : String) (kd : String × Yaml)
    (rest : List (String × Yaml)) (st : List String × Nat) :
    check3Methods p (kd :: rest) st =
      check3Methods p rest
        (if kd.1 != "parameters" && isDict kd.2 then
          ((if yamlHasKey kd.2 "operationId" then st.1
            else st.1 ++ [strUpper kd.1 ++ " " ++ p]), st.2 + 1)
        else st) := rfl

/-- One step of the outer check-3 loop. -/
theorem check3Paths_cons (p : String) (mv : Yaml)
    (rest : List (String × Yaml)) (st : List String × Nat) :
    check3Paths ((p, mv) :: rest) st =
      match ymItems mv with
      | none => none
      | some ms => check3Paths rest (check3Methods p ms st) := rfl

/-- Inner check-3 loop on a path whose method entries all carry
operationIds: nothing is flagged and the counter advances by the
endpoint count of the path. -/
theorem check3Methods_clean (p : String) (ms : List (String × Yaml))
    (hg : methodsAllHaveOpId ms = true) : ∀ st,
    check3Methods p ms st = (st.1, st.2 + methodCount ms) := by
  induction ms with
  | nil => intro st; simp [check3Methods, methodCount]
  | cons kd rest ih =>
    intro st
    rw [methodsAllHaveOpId, List.all_cons, Bool.and_eq_true] at hg
    obtain ⟨hkd, hrest⟩ := hg
    have ih2 := ih hrest
    cases hb : (kd.1 != "parameters" && isDict kd.2) with
    | false =>
      have hcount : methodCount (kd :: rest) = methodCount rest := by
        simp [methodCount, List.filter_cons, hb]
      rw [check3Methods_cons, hb]
      simp [ih2, hcount]
    | true =>
      have hkey : yamlHasKey kd.2 "operationId" = true := by
        revert hkd hb
        cases hq : (kd.1 == "parameters") <;>
          cases hd : isDict kd.2 <;>
            cases hk : yamlHasKey kd.2 "operationId" <;> simp [bne, hq, hd, hk]
      have hcount : methodCount (kd :: rest) = methodCount rest + 1 := by
        simp [methodCount, List.filter_cons, hb]
      rw [check3Methods_cons, hb]
      simp [hkey, ih2, hcount]
      try omega

/-- Outer check-3 loop on a paths mapping whose entries are all
well-formed: it completes, flags nothing and counts every endpoint. -/
theorem check3Paths_clean (pm : List (String × Yaml))
    (hg : pathsAllHaveOpId pm = true) : ∀ st,
    check3Paths pm st = some (st.1, st.2 + endpointCount pm) := by
  induction pm with
  | nil => intro st; simp [check3Paths, endpointCount]
  | cons pv rest ih =>
    intro st
    rw [pathsAllHaveOpId, List.all_cons, Bool.and_eq_true] at hg
    obtain ⟨hpv, hrest⟩ := hg
    have ih2 := ih hrest
    obtain ⟨p, mv⟩ := pv
    cases mv with
    | map mm =>
      simp only at hpv
      rw [check3Paths_cons]
      simp only [ymItems]
      rw [check3Methods_clean p mm hpv st, ih2]
      simp [endpointCount, Prod.mk.injEq]
      try omega
    | str sv => simp at hpv
    | num n => simp at hpv
    | null => simp at hpv
    | seq l => simp at hpv

/-- C4: on a document whose every non-`parameters` method entry under
every path is a mapping carrying an operationId, check 3 completes
with no findings and reports exactly the true endpoint count. -/
theorem C4_check3_complete :
    ∀ (spec : Yaml) (pm : List (String × Yaml)),
      ymIndex spec "paths" = some (Yaml.map pm) →
      pathsAllHaveOpId pm = true →
      ∃ st, check3Core spec = some st ∧ check3Errors st.1 = [] ∧
        st.2 = endpointCount pm := by
  intro spec pm hp hg
  refine ⟨([], endpointCount pm), ?_, rfl, rfl⟩
  rw [check3Core, hp]
  simp only [ymItems]
  simpa using check3Paths_clean pm hg ([], 0)

/-- Witness for C4 at the compliant document: six endpoints, no
findings. -/
theorem C4_check3_complete_witness :
    ymIndex goodDoc "paths" = some (Yaml.map goodPathsEntries) ∧
    pathsAllHaveOpId goodPathsEntries = true ∧
    ∃ st, check3Core goodDoc = some st ∧ check3Errors st.1 = [] ∧
      st.2 = endpointCount goodPathsEntries :=
  ⟨rfl, rfl, C4_check3_complete goodDoc goodPathsEntries rfl rfl⟩

/-! ## C5 and C9: check 4 -/

/-- One step of the check-4 loop. -/
theorem check4Go_cons (mp : String × String) (rest : List (String × String))
    (spec : Yaml) (acc : List String) :
    check4Go (mp :: rest) spec acc =
      match epHasUserId spec mp.1 mp.2 with
      | none => none
      | some h => check4Go rest spec (if h then acc else acc ++ [fmtEndpoint mp.1 mp.2]) := rfl

/-- The structural premise of C5 for one endpoint: under `paths`, the
path maps to a mapping, the method to a mapping, its `parameters` key
to a sequence, and some element of that sequence is a mapping whose
`name` field is exactly the string `userId`. -/
def declaresUserId (spec : Yaml) (method path : String) : Prop :=
  ∃ pm pv mm ps, ymIndex spec "paths" = some (Yaml.map pm) ∧
    ymLookup pm path = some (Yaml.map pv) ∧
    ymLookup pv method = some (Yaml.map mm) ∧
    ymLookup mm "parameters" = some (Yaml.seq ps) ∧
    ∃ entry ∈ ps, ∃ em, entry = Yaml.map em ∧
      ymLookup em "name" = some (Yaml.str "userId")

/-- An endpoint satisfying the structural premise passes the check-4
scan. -/
theorem epHasUserId_of_declares (spec : Yaml) (method path : String)
    (h : declaresUserId spec method path) :
    epHasUserId spec method path = some true := by
  obtain ⟨pm, pv, mm, ps, hp, hpath, hm, hpar, entry, hmem, em, hentry, hname⟩ := h
  have hdet : epDetails spec method path = some (Yaml.map mm) := by
    rw [epDetails, hp]
    simp [ymGet, hpath, hm]
  rw [epHasUserId, hdet]
  simp only [ymGet, hpar, ymIter, Option.some.injEq]
  refine List.any_eq_true.mpr ⟨entry, hmem, ?_⟩
  subst hentry
  simp only [pHasNameUserId, hname]
  show yamlBeq (Yaml.str "userId") (Yaml.str "userId") = true
  simp [yamlBeq]

/-- The check-4 loop adds nothing when every listed endpoint passes the
scan. -/
theorem check4Go_clean (spec : Yaml) :
    ∀ (eps : List (String × String)) (acc : List String),
      (∀ mp ∈ eps, epHasUserId spec mp.1 mp.2 = some true) →
      check4Go eps spec acc = some acc := by
  intro eps
  induction eps with
  | nil => intro acc _; rfl
  | cons mp rest ih =>
    intro acc hall
    rw [check4Go_cons, hall mp (by simp)]
    dsimp only
    exact ih acc fun e he => hall e (by simp [he])

/-- C5: on a document whose four fixed user endpoints each declare a
parameters sequence containing a userId-named mapping, check 4 flags
nothing; and check 4 always contributes at most one aggregated ERROR. -/
theorem C5_check4_clean :
    (∀ spec : Yaml, (∀ mp ∈ userEndpoints, declaresUserId spec mp.1 mp.2) →
      check4Missing spec = some []) ∧
    (∀ (spec : Yaml) (l : List String), check4Missing spec = some l →
      (check4Errors l).length ≤ 1) := by
  constructor
  · intro spec hall
    exact check4Go_clean spec userEndpoints []
      fun mp hmp => epHasUserId_of_declares spec mp.1 mp.2 (hall mp hmp)
  · intro spec l _
    rw [check4Errors]
    split <;> simp

/-- Witness for C5 at the compliant document. -/
theorem C5_check4_clean_witness :
    check4Missing goodDoc = some [] ∧ (check4Errors []).length ≤ 1 := by
  refine ⟨C5_check4_clean.1 goodDoc ?_, C5_check4_clean.2 goodDoc [] rfl⟩
  intro mp hmp
  fin_cases hmp <;>
    exact ⟨goodPathsEntries, _, _, _, rfl, rfl, rfl, rfl, userIdParam,
      List.mem_singleton.mpr rfl, [("name", Yaml.str "userId")], rfl, rfl⟩

/-- Any string already accumulated by the check-4 loop survives in the
final missing list. -/
theorem check4Go_mem_mono (spec : Yaml) (x : String) :
    ∀ (eps : List (String × String)) (acc l : List String),
      x ∈ acc → check4Go eps spec acc = some l → x ∈ l := by
  intro eps
  induction eps with
  | nil =>
    intro acc l hx h
    cases Option.some.inj h
    exact hx
  | cons mp rest ih =>
    intro acc l hx h
    rw [check4Go_cons] at h
    cases he : epHasUserId spec mp.1 mp.2 with
    | none => rw [he] at h; cases h
    | some b =>
      rw [he] at h
      dsimp only at h
      refine ih _ l ?_ h
      cases b with
      | true => simpa using hx
      | false => simp only [Bool.false_eq_true, if_false]; exact List.mem_append_left _ hx

/-- An endpoint of the list that fails the scan ends up in the missing
list of a completed check-4 run. -/
theorem check4Go_missing_mem (spec : Yaml) :
    ∀ (eps : List (String × String)) (mp : String × String) (acc l : List String),
      mp ∈ eps → epHasUserId spec mp.1 mp.2 = some false →
      check4Go eps spec acc = some l → fmtEndpoint mp.1 mp.2 ∈ l := by
  intro eps
  induction eps with
  | nil => intro mp acc l hm _ _; cases hm
  | cons e rest ih =>
    intro mp acc l hm hf h
    rw [check4Go_cons] at h
    cases he : epHasUserId spec e.1 e.2 with
    | none => rw [he] at h; cases h
    | some b =>
      rw [he] at h
      dsimp only at h
      rcases List.mem_cons.mp hm with rfl | hm2
      · rw [hf] at he
        cases Option.some.inj he
        simp only [Bool.false_eq_true, if_false] at h
        exact check4Go_mem_mono spec _ rest _ l (by simp) h
      · exact ih mp _ l hm2 hf h

/-- A user endpoint whose path is absent from the paths mapping, or
whose method key is absent under a mapping path value, fails the
check-4 scan exactly as one present without the parameter. -/
theorem epHasUserId_absent (spec : Yaml) (pm : List (String × Yaml)) (m p : String)
    (hp : ymIndex spec "paths" = some (Yaml.map pm))
    (h : ymLookup pm p = none ∨
      ∃ mv, ymLookup pm p = some (Yaml.map mv) ∧ ymLookup mv m = none) :
    epHasUserId spec m p = some false := by
  have hdet : epDetails spec m p = some (Yaml.map []) := by
    rw [epDetails, hp]
    rcases h with h | ⟨mv, h1, h2⟩
    · simp [ymGet, h, ymLookup]
    · simp [ymGet, h1, h2]
  rw [epHasUserId, hdet]
  simp [ymGet, ymLookup, ymIter]

/-- C9: each of the four fixed user endpoints whose path or method is
absent from the document is reported in the missing list of any
completed check-4 run, never silently skipped. -/
theorem C9_absent_endpoint_flagged :
    ∀ (spec : Yaml) (pm : List (String × Yaml)) (mp : String × String) (l : List String),
      mp ∈ userEndpoints →
      ymIndex spec "paths" = some (Yaml.map pm) →
      (ymLookup pm mp.2 = none ∨
        ∃ mv, ymLookup pm mp.2 = some (Yaml.map mv) ∧ ymLookup mv mp.1 = none) →
      check4Missing spec = some l →
      fmtEndpoint mp.1 mp.2 ∈ l := by
  intro spec pm mp l hmem hp habs hrun
  exact check4Go_missing_mem spec userEndpoints mp [] l hmem
    (epHasUserId_absent spec pm mp.1 mp.2 hp habs) hrun

/-- Witness for C9: in the empty-paths document the GET user endpoint
is reported missing. -/
theorem C9_absent_endpoint_flagged_witness :
    fmtEndpoint "get" "/user/{userId}" ∈
      ["GET /user/{userId}", "DELETE /user/{userId}",
       "GET /user/{userId}/points", "POST /user/{userId}/points"] :=
  C9_absent_endpoint_flagged emptyPathsDoc [] ("get", "/user/{userId}") _
    (by simp [userEndpoints]) rfl (Or.inl rfl) rfl

/-! ## C6: check 5 on covered baselines -/

/-- One step of the field-difference computation. -/
theorem missingFields_cons (req : Yaml) (f : String) (rest : List String) :
    missingFields req (f :: rest) =
      match ymContains req f with
      | none => none
      | some b =>
        match missingFields req rest with
        | none => none
        | some l => some (if b then l else f :: l) := rfl

/-- One step of the check-5 loop. -/
theorem check5Go_cons (t : RespTuple) (rest : List RespTuple) (spec : Yaml)
    (acc : List (RespTuple × List String)) :
    check5Go (t :: rest) spec acc =
      match navRequired spec t with
      | none => none
      | some req =>
        match missingFields req t.expected with
        | none => none
        | some miss =>
          check5Go rest spec (if miss.isEmpty then acc else acc ++ [(t, miss)]) := rfl

/-- The premise of C6 for one response tuple: the defensive navigation
reaches a declared required sequence containing every baseline field. -/
def baselineCovered (spec : Yaml) (t : RespTuple) : Prop :=
  ∃ reqs, navRequired spec t = some (Yaml.seq reqs) ∧
    ∀ f ∈ t.expected, Yaml.str f ∈ reqs

/-- The expected-minus-declared difference is empty when every expected
field occurs in the declared sequence. -/
theorem missingFields_nil_of_covered (reqs : List Yaml) :
    ∀ fields, (∀ f ∈ fields, Yaml.str f ∈ reqs) →
      missingFields (Yaml.seq reqs) fields = some [] := by
  intro fields
  induction fields with
  | nil => intro _; rfl
  | cons f rest ih =>
    intro hall
    have hb : ymContains (Yaml.seq reqs) f = some true := by
      simp only [ymContains, Option.some.injEq]
      refine List.any_eq_true.mpr ⟨Yaml.str f, hall f (by simp), ?_⟩
      show yamlBeq (Yaml.str f) (Yaml.str f) = true
      simp [yamlBeq]
    rw [missingFields_cons, hb, ih fun g hg => hall g (by simp [hg])]
    rfl

/-- The check-5 loop adds nothing when every listed tuple is covered. -/
theorem check5Go_clean (spec : Yaml) :
    ∀ (ts : List RespTuple) (acc : List (RespTuple × List String)),
      (∀ t ∈ ts, baselineCovered spec t) →
      check5Go ts spec acc = some acc := by
  intro ts
  induction ts with
  | nil => intro acc _; rfl
  | cons t rest ih =>
    intro acc hall
    obtain ⟨reqs, hnav, hcov⟩ := hall t (by simp)
    rw [check5Go_cons, hnav]
    dsimp only
    rw [missingFields_nil_of_covered reqs t.expected hcov]
    dsimp only
    exact ih acc fun u hu => hall u (by simp [hu])

/-- C6: on a document where each fixed response baseline is a subset of
the required list reached by the defensive navigation, check 5 flags
nothing. -/
theorem C6_check5_clean :
    ∀ spec : Yaml, (∀ t ∈ responsesToCheck, baselineCovered spec t) →
      check5Flagged spec = some [] := by
  intro spec hall
  exact check5Go_clean spec responsesToCheck [] hall

/-- Witness for C6 at the compliant document. -/
theorem C6_check5_clean_witness :
    check5Flagged goodDoc = some [] := by
  refine C6_check5_clean goodDoc ?_
  intro t ht
  fin_cases ht
  · exact ⟨[Yaml.str "products", Yaml.str "total", Yaml.str "limit"], rfl,
      by intro f hf; fin_cases hf <;> simp⟩
  · exact ⟨[Yaml.str "orders", Yaml.str "total"], rfl,
      by intro f hf; fin_cases hf <;> simp⟩
  · exact ⟨[Yaml.str "loyaltyPoints"], rfl,
      by intro f hf; fin_cases hf; simp⟩
  · exact ⟨[Yaml.str "remainingPoints"], rfl,
      by intro f hf; fin_cases hf; simp⟩

/-! ## C7: the raw-text casing checks -/

/-- C7: with zero occurrences of either bad-casing pattern, checks 1
and 2 produce no findings; with exactly one occurrence of
`operationID:`, check 1 produces exactly one ERROR and any completed
run has a failing verdict. -/
theorem C7_casing_checks :
    (∀ content : String, occurrences "operationID:" content = 0 →
      check1Errors content = []) ∧
    (∀ content : String, occurrences "\n  Parameters:" content = 0 →
      check2Errors content = []) ∧
    (∀ (spec : Yaml) (content : String),
      occurrences "operationID:" content = 1 →
      check1Errors content = [check1Msg 1] ∧
      ∀ v : Verdict, validate spec content = some v → v.ok = false) := by
  refine ⟨?_, ?_, ?_⟩
  · intro content h; simp [check1Errors, h]
  · intro content h; simp [check2Errors, h]
  · intro spec content h
    refine ⟨by simp [check1Errors, h], ?_⟩
    intro v hv
    obtain ⟨st, missing, fl, _, _, _, hveq⟩ := validate_eq spec content v hv
    subst hveq
    simp [check1Errors, h]

/-- The text of a document containing one bad-cased operationId line. -/
def badText : String := "operationID: getUser\n"

/-- The verdict of the compliant document paired with the bad-cased raw
text: one check-1 error, failing verdict. -/
def vBad : Verdict := ⟨false, [check1Msg 1], [], 6⟩

/-- Witness for C7: empty text passes checks 1 and 2; the bad-cased
text yields exactly one check-1 ERROR and a failing verdict. -/
theorem C7_casing_checks_witness :
    check1Errors "" = [] ∧ check2Errors "" = [] ∧
    check1Errors badText = [check1Msg 1] ∧ vBad.ok = false :=
  ⟨C7_casing_checks.1 "" rfl,
   C7_casing_checks.2.1 "" rfl,
   (C7_casing_checks.2.2 goodDoc badText rfl).1,
   (C7_casing_checks.2.2 goodDoc badText rfl).2 vBad rfl⟩
